import Mathlib

/-!
Shallow embedding of the ignis notification daemon
(src/ignis/services/notifications/service.py) for checking the
specification's claims about notification lifecycle, popup admission,
id allocation and persistence.

The `NotificationService` state and its operations are translated from
`service.py`.  The `Notification` entity class, the constants module and
the GdkPixbuf decoder are not part of the provided sources; the pieces of
their behaviour the daemon relies on are modelled from the spec and
marked as such in their doc comments.
-/

namespace Ignis

/-- Equality of `Except` results is decidable when it is for both
components; used to evaluate the daemon's fallible operations on
concrete inputs. -/
instance {ε α : Type} [DecidableEq ε] [DecidableEq α] : DecidableEq (Except ε α) :=
  fun x y =>
    match x, y with
    | Except.ok a, Except.ok b =>
      if h : a = b then Decidable.isTrue (by rw [h])
      else Decidable.isFalse (by intro hc; cases hc; exact h rfl)
    | Except.error a, Except.error b =>
      if h : a = b then Decidable.isTrue (by rw [h])
      else Decidable.isFalse (by intro hc; cases hc; exact h rfl)
    | Except.ok _, Except.error _ => Decidable.isFalse (by intro hc; cases hc)
    | Except.error _, Except.ok _ => Decidable.isFalse (by intro hc; cases hc)

/-- The core notification entity, as constructed in
`NotificationService.__init_notification`: id, content fields, urgency
(default 1 = normal), resolved timeout, creation time and the popup flag
(negation of do-not-disturb sampled at creation time). -/
structure Notification where
  id : Nat
  app_name : String
  icon : Option String
  summary : String
  body : String
  actions : List String
  urgency : Nat
  timeout : Int
  time : Nat
  popup : Bool
deriving DecidableEq, Repr

/-- Modelled from the spec: the external Image Decoder is given a raw
pixel buffer descriptor; decoding either succeeds, producing a stored
image file, or fails with a generic decode error (spec section 4.5 / 7).
The boolean records which outcome this payload produces. -/
structure ImageData where
  decodes : Bool
deriving DecidableEq, Repr

/-- The `hints` dictionary of a Notify call, restricted to the keys the
daemon reads: `urgency` (`hints.get("urgency", 1)`) and `image-data`. -/
structure Hints where
  urgency : Option Nat := none
  image_data : Option ImageData := none
deriving DecidableEq, Repr

/-- Arguments of the `Notify` protocol method. -/
structure NotifyArgs where
  app_name : String
  replaces_id : Nat
  app_icon : String
  summary : String
  body : String
  actions : List String
  hints : Hints
  timeout : Int
deriving DecidableEq, Repr

/-- The on-disk history file as written by `__sync`:
`{"id": self._id, "notifications": [n.json ...]}`. -/
structure PersistedFile where
  id : Nat
  notifications : List Notification
deriving DecidableEq, Repr

/-- Modelled from the spec: the canonical empty skeleton
(`NOTIFICATIONS_EMPTY_CACHE_FILE`, whose constants module is not in the
provided sources) is `id_counter 0, notifications []` (spec section 4.4). -/
def emptySkeleton : PersistedFile := { id := 0, notifications := [] }

/-- Outbound observable events emitted by the daemon: the GObject
signals `notified` / `new_popup` and the bus signal
`NotificationClosed(id, reason)`. -/
inductive Event where
  | notified (id : Nat)
  | newPopup (id : Nat)
  | notificationClosed (id : Nat) (reason : Nat)
deriving DecidableEq, Repr

/-- The daemon state: the id counter `self._id`, the insertion-ordered
dictionaries `self._notifications` and `self._popups` (Python dicts keep
insertion order, so both are modelled as lists keyed by `.id`), the
three configuration options, the persisted history file, the trace of
emitted events, a clock supplying `datetime.now().timestamp()`, and a
ghost log of the ids returned by `Notify` calls with `replaces_id = 0`. -/
structure ServiceState where
  _id : Nat
  notifications : List Notification
  popups : List Notification
  dnd : Bool
  popup_timeout : Int
  max_popups_count : Int
  file : PersistedFile
  events : List Event
  clock : Nat
  returned : List Nat
deriving DecidableEq, Repr

/-- Assignment `d[k] = v` on a Python dict: if the key is present the value is
updated in place (keeping its position), otherwise the entry is
appended. -/
def insertOrUpdate (n : Notification) : List Notification → List Notification
  | [] => [n]
  | m :: rest => if m.id = n.id then n :: rest else m :: insertOrUpdate n rest

/-- Removal of the entry with key `i` (`dict.pop`); dict keys are
unique, so filtering by id removes at most one entry in any state the
daemon builds. -/
def removeById (i : Nat) (l : List Notification) : List Notification :=
  l.filter (fun m => m.id ≠ i)

/-- Lookup `self._notifications.get(id, None)`. -/
def getNotification (s : ServiceState) (i : Nat) : Option Notification :=
  s.notifications.find? (fun m => m.id = i)

/-- Method `__dismiss_popup`: remove the notification from `self._popups` if it
is present there (the `self._popups.get(...)` guard). -/
def dismissPopup (i : Nat) (s : ServiceState) : ServiceState :=
  if (s.popups.find? (fun m => m.id = i)).isSome then
    { s with popups := removeById i s.popups }
  else s

/-- Method `__sync`: rewrite the whole history file from the current state. -/
def sync (s : ServiceState) : ServiceState :=
  { s with file := { id := s._id, notifications := s.notifications } }

/-- Method `__close_notification`: remove from the store, dismiss the popup if
the notification carries the popup flag, persist, then emit
`NotificationClosed(id, 2)`.

Modelled from the spec: `Notification.close` runs this close path
synchronously (spec section 5: the replace sequencing relies on the
close path completing synchronously), via the handler registered in
`__add_notification`. -/
def closeNotification (n : Notification) (s : ServiceState) : ServiceState :=
  let s1 := { s with notifications := removeById n.id s.notifications }
  let s2 := if n.popup then dismissPopup n.id s1 else s1
  let s3 := sync s2
  { s3 with events := s3.events ++ [Event.notificationClosed n.id 2] }

/-- Modelled from the spec: `__save_pixbuf` hands the payload to the
external decoder, which either writes the image file or raises a decode
error (spec section 4.5).  `service.py` wraps this call in no exception
handler. -/
def savePixbuf (d : ImageData) : Except Unit Unit :=
  if d.decodes then Except.ok () else Except.error ()

/-- Modelled from the spec: the deterministic per-id icon path
`f"{NOTIFICATIONS_IMAGE_DATA}/{_id}"`. -/
def imageDataPath (i : Nat) : String :=
  "image-data/" ++ toString i

/-- The `Notification(...)` constructed by `__init_notification`: icon
resolution (embedded image path overrides the `app_icon` string),
urgency default 1, timeout `-1` resolved to the configured
`popup_timeout`, creation time from the clock, popup flag
`not self.dnd`. -/
def mkNotification (i : Nat) (a : NotifyArgs) (s : ServiceState) : Notification :=
  { id := i
    app_name := a.app_name
    icon := match a.hints.image_data with
            | some _ => some (imageDataPath i)
            | none => some a.app_icon
    summary := a.summary
    body := a.body
    actions := a.actions
    urgency := a.hints.urgency.getD 1
    timeout := if a.timeout = -1 then s.popup_timeout else a.timeout
    time := s.clock
    popup := !s.dnd }

/-- The eviction check of `__init_notification`:
`if len(self.popups) >= self.max_popups_count: if not
self.max_popups_count == 0: self.popups[-1].dismiss()`.  `popups[-1]` is
the most recently inserted dict entry; on an empty list the index
raises, hence the `Except`. -/
def evictStep (s : ServiceState) : Except ServiceState ServiceState :=
  if (s.popups.length : Int) ≥ s.max_popups_count then
    if s.max_popups_count = 0 then Except.ok s
    else
      match s.popups.getLast? with
      | none => Except.error s
      | some p => Except.ok (dismissPopup p.id s)
  else Except.ok s

/-- The tail of `__init_notification` after the eviction check: admit
the notification as a popup when its flag is set (emitting `new_popup`),
register it in the store (`__add_notification`), persist (`__sync`),
emit `notified`, and advance the clock. -/
def admitAndRegister (n : Notification) (s : ServiceState) : ServiceState :=
  let s2 := if n.popup then
      { s with popups := insertOrUpdate n s.popups
               events := s.events ++ [Event.newPopup n.id] }
    else s
  let s3 := { s2 with notifications := insertOrUpdate n s2.notifications }
  let s4 := sync s3
  { s4 with events := s4.events ++ [Event.notified n.id]
            clock := s4.clock + 1 }

/-- The part of `__init_notification` after the pixbuf save: construct
the entity, run the eviction check, then admit/register/persist/emit.
An `error` result carries the daemon state at the point the exception
escaped. -/
def initNotificationBody (i : Nat) (a : NotifyArgs) (s : ServiceState) :
    Except ServiceState ServiceState :=
  match evictStep s with
  | Except.error s1 => Except.error s1
  | Except.ok s1 => Except.ok (admitAndRegister (mkNotification i a s) s1)

/-- Method `__init_notification`: if the hints carry `image-data`, the pixbuf
is saved first (a decode failure raises out of the method, before any
state mutation); then the body runs. -/
def initNotification (i : Nat) (a : NotifyArgs) (s : ServiceState) :
    Except ServiceState ServiceState :=
  match a.hints.image_data with
  | some d =>
    match savePixbuf d with
    | Except.error _ => Except.error s
    | Except.ok _ => initNotificationBody i a s
  | none => initNotificationBody i a s

/-- Method `__Notify`.  For `replaces_id = 0` the counter is incremented first
(`_id = self._id = self._id + 1`) and the new id is initialised (and
logged in the ghost `returned` list when the call completes).  For
`replaces_id != 0`: if the id is live, `old_notification.close()` runs
the synchronous close path, and only afterwards is the `"closed"`
handler that would call `_init` connected — the signal has already been
emitted, so the handler never runs and no new notification is
constructed; if the id is not live, `_init` runs directly under the
supplied id.  The method returns the id; an exception escaping `_init`
yields an `error` carrying the daemon state it left behind. -/
def notifyCall (a : NotifyArgs) (s : ServiceState) :
    Except ServiceState (ServiceState × Nat) :=
  if a.replaces_id = 0 then
    let i := s._id + 1
    let s0 := { s with _id := i }
    match initNotification i a s0 with
    | Except.error se => Except.error se
    | Except.ok sk => Except.ok ({ sk with returned := sk.returned ++ [i] }, i)
  else
    match getNotification s a.replaces_id with
    | some old => Except.ok (closeNotification old s, a.replaces_id)
    | none =>
      match initNotification a.replaces_id a s with
      | Except.error se => Except.error se
      | Except.ok sk => Except.ok (sk, a.replaces_id)

/-- A record of the history file as the loader sees it: either the
record rehydrates into a `Notification` (`Notification(**n, popup=False,
dbus=...)` succeeds) or its construction raises. -/
inductive RawRecord where
  | valid (n : Notification)
  | invalid
deriving DecidableEq, Repr

/-- The result of `json.load` on the history file: the load raises, or
yields a non-dict value (so `.get` raises), or yields a dict with an
optional `id` and a list of records. -/
inductive ParsedFile where
  | unparseable
  | notObject
  | object (id : Option Nat) (records : List RawRecord)
deriving DecidableEq, Repr

/-- Method `__add_notification` as used by the loader: the rehydrated entity is
registered in the store with `popup=False` forced. -/
def addLoaded (n : Notification) (s : ServiceState) : ServiceState :=
  { s with notifications := insertOrUpdate { n with popup := false } s.notifications }

/-- The rehydration loop of `__load_notifications`: records are added in
order; the first invalid record raises, leaving the records added so far
in the store. -/
def tryLoadRecords : List RawRecord → ServiceState → Except ServiceState ServiceState
  | [], s => Except.ok s
  | RawRecord.valid n :: rest, s => tryLoadRecords rest (addLoaded n s)
  | RawRecord.invalid :: _, s => Except.error s

/-- Body of `__load_notifications`: on success the records are rehydrated and
the counter restored (`self._id = log_file.get("id", 0)` runs after the
loop); any exception is caught, a warning logged, and the file rewritten
with the empty skeleton — the in-memory additions made before the
exception are not rolled back. -/
def tryLoad (p : ParsedFile) (s : ServiceState) : Except ServiceState ServiceState :=
  match p with
  | ParsedFile.unparseable => Except.error s
  | ParsedFile.notObject => Except.error s
  | ParsedFile.object i rs =>
    match tryLoadRecords rs s with
    | Except.error sm => Except.error sm
    | Except.ok sk => Except.ok { sk with _id := i.getD 0 }

/-- The exception boundary of `__load_notifications`: a successful
attempt stands; a raised exception leaves the in-memory additions made
so far and rewrites the file with the empty skeleton. -/
def loadNotifications (p : ParsedFile) (s : ServiceState) : ServiceState :=
  match tryLoad p s with
  | Except.ok sk => sk
  | Except.error sm => { sm with file := emptySkeleton }

/-- The parse of a structurally intact history file (what `__sync`
wrote): every record rehydrates. -/
def parseOf (f : PersistedFile) : ParsedFile :=
  ParsedFile.object (some f.id) (f.notifications.map RawRecord.valid)

/-- A fresh `NotificationService.__init__` before `__load_notifications`
runs: counter 0, empty store and popup set, options at their defaults
(`dnd=False`, `popup_timeout=5000`, `max_popups_count=3`), the existing
history file untouched, no signals emitted yet. -/
def bootState (f : PersistedFile) (clock : Nat) (returned : List Nat) : ServiceState :=
  { _id := 0
    notifications := []
    popups := []
    dnd := false
    popup_timeout := 5000
    max_popups_count := 3
    file := f
    events := []
    clock := clock
    returned := returned }

/-- The very first daemon start: no usable history file, so the load
path leaves the empty skeleton. -/
def initState : ServiceState := bootState emptySkeleton 0 []

/-- The operations a client or the environment can perform on the
daemon. -/
inductive Op where
  | notify (a : NotifyArgs)
  | closeReq (i : Nat)
  | setDnd (b : Bool)
  | setTimeout (t : Int)
  | setMax (m : Int)
  | restart
deriving DecidableEq, Repr

/-- One daemon step.  `notify` is `__Notify` (an escaping exception
leaves the state it produced); `closeReq` is `__CloseNotification`
(missing ids are ignored); the setters write the configuration options;
`restart` kills the process and starts a new daemon, which reloads the
intact persisted file (the ghost `returned` log and the clock survive
across the restart). -/
def step (s : ServiceState) (o : Op) : ServiceState :=
  match o with
  | Op.notify a =>
    match notifyCall a s with
    | Except.ok (s1, _) => s1
    | Except.error s1 => s1
  | Op.closeReq i =>
    match getNotification s i with
    | some n => closeNotification n s
    | none => s
  | Op.setDnd b => { s with dnd := b }
  | Op.setTimeout t => { s with popup_timeout := t }
  | Op.setMax m => { s with max_popups_count := m }
  | Op.restart => loadNotifications (parseOf s.file) (bootState s.file s.clock s.returned)

/-- Run a sequence of operations from a state. -/
def run (s : ServiceState) (ops : List Op) : ServiceState :=
  ops.foldl step s

end Ignis

/-! ## Basic lemmas about the list/dictionary operations -/

namespace Ignis

theorem insertOrUpdate_of_not_mem (n : Notification) :
    ∀ l : List Notification, n.id ∉ l.map Notification.id →
      insertOrUpdate n l = l ++ [n] := by
  intro l
  induction l with
  | nil => intro _; rfl
  | cons m rest ih =>
    intro h
    simp only [List.map_cons, List.mem_cons, not_or] at h
    have hne : ¬(m.id = n.id) := fun hc => h.1 hc.symm
    simp only [insertOrUpdate, if_neg hne, List.cons_append, List.cons.injEq, true_and]
    exact ih h.2

theorem length_insertOrUpdate (n : Notification) :
    ∀ l : List Notification,
      (insertOrUpdate n l).length = l.length ∨
      (insertOrUpdate n l).length = l.length + 1 := by
  intro l
  induction l with
  | nil => right; rfl
  | cons m rest ih =>
    by_cases h : m.id = n.id
    · left; simp [insertOrUpdate, h]
    · rcases ih with h1 | h1
      · left; simp [insertOrUpdate, h, h1]
      · right; simp [insertOrUpdate, h, h1]

theorem removeById_getLast :
    ∀ (l : List Notification) (hne : l ≠ []),
      (l.map Notification.id).Nodup →
      removeById (l.getLast hne).id l = l.dropLast := by
  intro l
  induction l with
  | nil => intro hne; exact absurd rfl hne
  | cons m rest ih =>
    intro _ hnd
    cases rest with
    | nil => simp [removeById]
    | cons y ys =>
      have hnd' : m.id ∉ List.map Notification.id (y :: ys) ∧
          (List.map Notification.id (y :: ys)).Nodup := List.nodup_cons.mp hnd
      have hlast : (m :: y :: ys).getLast (by simp) = (y :: ys).getLast (by simp) := by
        simp [List.getLast_cons]
      have hmem : ((y :: ys).getLast (by simp)).id ∈ (y :: ys).map Notification.id :=
        List.mem_map_of_mem Notification.id (List.getLast_mem (by simp))
      have hm_ne : m.id ≠ ((y :: ys).getLast (by simp)).id := by
        intro hc
        exact hnd'.1 (hc ▸ hmem)
      have hstep : removeById ((y :: ys).getLast (by simp)).id (m :: y :: ys)
          = m :: removeById ((y :: ys).getLast (by simp)).id (y :: ys) := by
        simp [removeById, hm_ne]
      rw [hlast, hstep, ih (by simp) hnd'.2]
      rfl

theorem find?_isSome_of_mem {l : List Notification} {n : Notification}
    (h : n ∈ l) : (l.find? (fun m => m.id = n.id)).isSome := by
  rw [List.find?_isSome]
  exact ⟨n, h, by simp⟩

/-! ## Frame lemmas for the daemon operations -/

theorem dismissPopup_shape (i : Nat) (s : ServiceState) :
    ∃ l, dismissPopup i s = { s with popups := l } := by
  unfold dismissPopup
  split
  · exact ⟨removeById i s.popups, rfl⟩
  · exact ⟨s.popups, rfl⟩

theorem evictStep_error {s r : ServiceState}
    (h : evictStep s = Except.error r) : r = s := by
  unfold evictStep at h
  split at h
  · split at h
    · exact absurd h (by simp)
    · split at h
      · cases h; rfl
      · exact absurd h (by simp)
  · exact absurd h (by simp)

theorem evictStep_ok_shape {s s1 : ServiceState}
    (h : evictStep s = Except.ok s1) : ∃ l, s1 = { s with popups := l } := by
  unfold evictStep at h
  split at h
  · split at h
    · cases h; exact ⟨s.popups, rfl⟩
    · split at h
      · exact absurd h (by simp)
      · rename_i p _
        cases h
        rcases dismissPopup_shape p.id s with ⟨l, hl⟩
        exact ⟨l, hl⟩
  · cases h; exact ⟨s.popups, rfl⟩

theorem admitAndRegister_spec (n : Notification) (s : ServiceState) :
    (admitAndRegister n s)._id = s._id ∧
    (admitAndRegister n s).returned = s.returned ∧
    (admitAndRegister n s).notifications = insertOrUpdate n s.notifications ∧
    (admitAndRegister n s).file =
      { id := s._id, notifications := insertOrUpdate n s.notifications } ∧
    (admitAndRegister n s).popups =
      (if n.popup then insertOrUpdate n s.popups else s.popups) ∧
    (admitAndRegister n s).dnd = s.dnd ∧
    (admitAndRegister n s).max_popups_count = s.max_popups_count := by
  unfold admitAndRegister sync
  split <;> simp

theorem initNotificationBody_error {i : Nat} {a : NotifyArgs} {s r : ServiceState}
    (h : initNotificationBody i a s = Except.error r) : r = s := by
  unfold initNotificationBody at h
  split at h
  · rename_i s1 heq
    cases h
    exact evictStep_error heq
  · exact absurd h (by simp)

theorem initNotificationBody_ok {i : Nat} {a : NotifyArgs} {s s' : ServiceState}
    (h : initNotificationBody i a s = Except.ok s') :
    ∃ s1, evictStep s = Except.ok s1 ∧ s' = admitAndRegister (mkNotification i a s) s1 := by
  unfold initNotificationBody at h
  split at h
  · exact absurd h (by simp)
  · rename_i s1 heq
    cases h
    exact ⟨s1, heq, rfl⟩

theorem initNotification_error_eq {i : Nat} {a : NotifyArgs} {s r : ServiceState}
    (h : initNotification i a s = Except.error r) : r = s := by
  unfold initNotification at h
  split at h
  · rename_i d _
    unfold savePixbuf at h
    by_cases hd : d.decodes
    · rw [if_pos hd] at h
      exact initNotificationBody_error h
    · rw [if_neg hd] at h
      simp only at h
      cases h; rfl
  · exact initNotificationBody_error h

theorem initNotification_ok {i : Nat} {a : NotifyArgs} {s s' : ServiceState}
    (h : initNotification i a s = Except.ok s') :
    initNotificationBody i a s = Except.ok s' := by
  unfold initNotification at h
  split at h
  · rename_i d _
    unfold savePixbuf at h
    by_cases hd : d.decodes
    · rwa [if_pos hd] at h
    · rw [if_neg hd] at h
      exact absurd h (by simp)
  · exact h

theorem initNotification_ok_frame {i : Nat} {a : NotifyArgs} {s s' : ServiceState}
    (h : initNotification i a s = Except.ok s') :
    s'._id = s._id ∧ s'.file.id = s._id ∧ s'.returned = s.returned := by
  rcases initNotificationBody_ok (initNotification_ok h) with ⟨s1, hev, hadm⟩
  rcases evictStep_ok_shape hev with ⟨l, hl⟩
  rcases admitAndRegister_spec (mkNotification i a s) s1 with
    ⟨hid, hret, _, hfile, _, _, _⟩
  subst hadm hl
  exact ⟨hid, by rw [hfile], hret⟩

theorem dismissPopup_frame (i : Nat) (s : ServiceState) :
    (dismissPopup i s)._id = s._id ∧
    (dismissPopup i s).notifications = s.notifications ∧
    (dismissPopup i s).returned = s.returned ∧
    (dismissPopup i s).events = s.events ∧
    (dismissPopup i s).file = s.file := by
  unfold dismissPopup
  split <;> simp

theorem closeNotification_frame (n : Notification) (s : ServiceState) :
    (closeNotification n s)._id = s._id ∧
    (closeNotification n s).file.id = s._id ∧
    (closeNotification n s).returned = s.returned := by
  unfold closeNotification sync
  split
  · rcases dismissPopup_frame n.id { s with notifications := removeById n.id s.notifications }
      with ⟨h1, _, h3, _, _⟩
    simp [h1, h3]
  · simp

end Ignis

/-! ## The id-allocation invariant (claim C2) -/

namespace Ignis

/-- Every id handed out by a fresh `Notify` so far is at most the
persisted counter, which is at most the in-memory counter, and the
handed-out ids are strictly increasing. -/
def GoodState (s : ServiceState) : Prop :=
  List.Pairwise (· < ·) s.returned ∧
  (∀ r ∈ s.returned, r ≤ s.file.id) ∧
  s.file.id ≤ s._id

theorem tryLoadRecords_valid (ns : List Notification) :
    ∀ s : ServiceState,
      tryLoadRecords (ns.map RawRecord.valid) s =
        Except.ok (ns.foldl (fun st n => addLoaded n st) s) := by
  induction ns with
  | nil => intro s; rfl
  | cons n rest ih =>
    intro s
    simp only [List.map_cons, tryLoadRecords, List.foldl_cons]
    exact ih (addLoaded n s)

theorem foldl_addLoaded_frame (ns : List Notification) :
    ∀ s : ServiceState,
      (ns.foldl (fun st n => addLoaded n st) s)._id = s._id ∧
      (ns.foldl (fun st n => addLoaded n st) s).file = s.file ∧
      (ns.foldl (fun st n => addLoaded n st) s).returned = s.returned ∧
      (ns.foldl (fun st n => addLoaded n st) s).popups = s.popups ∧
      (ns.foldl (fun st n => addLoaded n st) s).events = s.events := by
  induction ns with
  | nil => intro s; exact ⟨rfl, rfl, rfl, rfl, rfl⟩
  | cons n rest ih =>
    intro s
    simpa only [List.foldl_cons, addLoaded] using ih { s with
      notifications := insertOrUpdate { n with popup := false } s.notifications }

theorem restart_frame (f : PersistedFile) (c : Nat) (r : List Nat) :
    (loadNotifications (parseOf f) (bootState f c r))._id = f.id ∧
    (loadNotifications (parseOf f) (bootState f c r)).file = f ∧
    (loadNotifications (parseOf f) (bootState f c r)).returned = r := by
  have hload : tryLoad (parseOf f) (bootState f c r) =
      Except.ok { f.notifications.foldl (fun st n => addLoaded n st) (bootState f c r) with
                  _id := f.id } := by
    simp only [parseOf, tryLoad, tryLoadRecords_valid, Option.getD_some]
  rcases foldl_addLoaded_frame f.notifications (bootState f c r) with ⟨_, h2, h3, _, _⟩
  simp only [loadNotifications, hload]
  exact ⟨trivial, h2, h3⟩

theorem stepGood (s : ServiceState) (o : Op) (h : GoodState s) :
    GoodState (step s o) := by
  rcases h with ⟨hpw, hbound, hfile⟩
  cases o with
  | notify a =>
    simp only [step]
    by_cases hz : a.replaces_id = 0
    · simp only [notifyCall, if_pos hz]
      rcases hI : initNotification (s._id + 1) a { s with _id := s._id + 1 } with se | sk
      · simp only
        have := initNotification_error_eq hI
        subst this
        exact ⟨hpw, hbound, Nat.le_succ_of_le hfile⟩
      · simp only
        rcases initNotification_ok_frame hI with ⟨hid, hfid, hret⟩
        refine ⟨?_, ?_, ?_⟩
        · rw [hret]
          rw [List.pairwise_append]
          refine ⟨hpw, List.pairwise_singleton _ _, ?_⟩
          intro x hx y hy
          rw [List.mem_singleton] at hy
          subst hy
          exact Nat.lt_succ_of_le (le_trans (hbound x hx) hfile)
        · intro r hr
          rw [hret] at hr
          rw [List.mem_append] at hr
          rw [hfid]
          rcases hr with hr | hr
          · exact le_trans (hbound r hr) (Nat.le_succ_of_le hfile)
          · rw [List.mem_singleton] at hr
            subst hr; exact le_refl _
        · rw [hfid, hid]
    · simp only [notifyCall, if_neg hz]
      rcases hg : getNotification s a.replaces_id with _ | old
      · simp only
        rcases hI : initNotification a.replaces_id a s with se | sk
        · simp only
          have := initNotification_error_eq hI
          subst this
          exact ⟨hpw, hbound, hfile⟩
        · simp only
          rcases initNotification_ok_frame hI with ⟨hid, hfid, hret⟩
          refine ⟨hret ▸ hpw, ?_, by rw [hfid, hid]⟩
          intro r hr
          rw [hret] at hr
          rw [hfid]
          exact le_trans (hbound r hr) hfile
      · simp only
        rcases closeNotification_frame old s with ⟨hid, hfid, hret⟩
        refine ⟨hret ▸ hpw, ?_, by rw [hfid, hid]⟩
        intro r hr
        rw [hret] at hr
        rw [hfid]
        exact le_trans (hbound r hr) hfile
  | closeReq i =>
    simp only [step]
    rcases hg : getNotification s i with _ | n
    · exact ⟨hpw, hbound, hfile⟩
    · simp only
      rcases closeNotification_frame n s with ⟨hid, hfid, hret⟩
      refine ⟨hret ▸ hpw, ?_, by rw [hfid, hid]⟩
      intro r hr
      rw [hret] at hr
      rw [hfid]
      exact le_trans (hbound r hr) hfile
  | setDnd b => exact ⟨hpw, hbound, hfile⟩
  | setTimeout t => exact ⟨hpw, hbound, hfile⟩
  | setMax m => exact ⟨hpw, hbound, hfile⟩
  | restart =>
    simp only [step]
    rcases restart_frame s.file s.clock s.returned with ⟨hid, hf, hret⟩
    refine ⟨?_, ?_, ?_⟩
    · rw [hret]; exact hpw
    · intro r hr
      rw [hret] at hr
      rw [hf]
      exact hbound r hr
    · rw [hf, hid]

theorem runGood (ops : List Op) :
    ∀ s : ServiceState, GoodState s → GoodState (run s ops) := by
  induction ops with
  | nil => intro s h; exact h
  | cons o rest ih =>
    intro s h
    exact ih (step s o) (stepGood s o h)

end Ignis

/-! ## Characterisation of the eviction at capacity -/

namespace Ignis

theorem mem_insertOrUpdate (n : Notification) :
    ∀ l : List Notification, n ∈ insertOrUpdate n l := by
  intro l
  induction l with
  | nil => exact List.mem_singleton_self n
  | cons m rest ih =>
    by_cases h : m.id = n.id
    · simp [insertOrUpdate, h]
    · simp only [insertOrUpdate, if_neg h, List.mem_cons]
      exact Or.inr ih

theorem evictStep_at_capacity {s : ServiceState}
    (hnd : (s.popups.map Notification.id).Nodup)
    (hmax : s.max_popups_count ≠ 0)
    (hlen : (s.popups.length : Int) ≥ s.max_popups_count)
    (hne : s.popups ≠ []) :
    evictStep s = Except.ok { s with popups := s.popups.dropLast } := by
  unfold evictStep
  rw [if_pos hlen, if_neg hmax, List.getLast?_eq_getLast_of_ne_nil hne]
  simp only
  unfold dismissPopup
  rw [if_pos (find?_isSome_of_mem (List.getLast_mem hne))]
  rw [removeById_getLast s.popups hne hnd]

theorem popups_ne_nil_at_capacity {s : ServiceState}
    (hmax : 0 < s.max_popups_count)
    (hlen : (s.popups.length : Int) ≥ s.max_popups_count) :
    s.popups ≠ [] := by
  intro h
  rw [h] at hlen
  simp only [List.length_nil, Int.natCast_zero] at hlen
  omega

/-! ## Claim C2 -/

/-- Claim C2: for every sequence of `Notify` calls with
`replaces_id = 0`, across any interleaving of other daemon operations
including restarts that reload the persisted counter, the returned ids
are strictly increasing and no id is ever issued twice. -/
theorem C2_fresh_ids_strictly_increasing (ops : List Op) :
    List.Pairwise (· < ·) (run initState ops).returned ∧
    (run initState ops).returned.Nodup := by
  have h0 : GoodState initState := by
    refine ⟨List.Pairwise.nil, ?_, Nat.le_refl 0⟩
    intro r hr
    exact absurd hr (List.not_mem_nil r)
  have h := runGood ops initState h0
  exact ⟨h.1, h.1.imp (fun hab => Nat.ne_of_lt hab)⟩

/-! ## Claim C10 -/

/-- Claim C10: a `Notify` call with `replaces_id ≠ 0` never modifies
the id counter, whether the id is live, not live, or the call fails on
a decode error; the id it returns is the supplied `replaces_id`, so the
value the next fresh `Notify` returns is unchanged. -/
theorem C10_replace_preserves_counter (s : ServiceState) (a : NotifyArgs)
    (hz : a.replaces_id ≠ 0) :
    (∀ s' r, notifyCall a s = Except.ok (s', r) →
      s'._id = s._id ∧ r = a.replaces_id) ∧
    (∀ s', notifyCall a s = Except.error s' → s'._id = s._id) := by
  constructor
  · intro s' r h
    simp only [notifyCall, if_neg hz] at h
    rcases hg : getNotification s a.replaces_id with _ | old
    · rw [hg] at h
      simp only at h
      rcases hI : initNotification a.replaces_id a s with se | sk
      · rw [hI] at h
        exact absurd h (by simp)
      · rw [hI] at h
        simp only [Except.ok.injEq, Prod.mk.injEq] at h
        rcases h with ⟨h1, h2⟩
        rw [← h1, ← h2]
        exact ⟨(initNotification_ok_frame hI).1, rfl⟩
    · rw [hg] at h
      simp only [Except.ok.injEq, Prod.mk.injEq] at h
      rcases h with ⟨h1, h2⟩
      rw [← h1, ← h2]
      exact ⟨(closeNotification_frame old s).1, rfl⟩
  · intro s' h
    simp only [notifyCall, if_neg hz] at h
    rcases hg : getNotification s a.replaces_id with _ | old
    · rw [hg] at h
      simp only at h
      rcases hI : initNotification a.replaces_id a s with se | sk
      · rw [hI] at h
        simp only [Except.error.injEq] at h
        rw [← h]
        rw [initNotification_error_eq hI]
      · rw [hI] at h
        exact absurd h (by simp)
    · rw [hg] at h
      exact absurd h (by simp)

/-- Sample `Notify` arguments used by the concrete witnesses below. -/
def sampleArgs : NotifyArgs :=
  { app_name := "app"
    replaces_id := 0
    app_icon := "icon"
    summary := "hello"
    body := "world"
    actions := []
    hints := {}
    timeout := 0 }

theorem C10_replace_preserves_counter_witness :
    ({ sampleArgs with replaces_id := 5 } : NotifyArgs).replaces_id ≠ 0 ∧
    ((∀ s' r, notifyCall { sampleArgs with replaces_id := 5 } initState =
        Except.ok (s', r) → s'._id = initState._id ∧ r = 5) ∧
     (∀ s', notifyCall { sampleArgs with replaces_id := 5 } initState =
        Except.error s' → s'._id = initState._id)) :=
  ⟨by decide, C10_replace_preserves_counter initState
    { sampleArgs with replaces_id := 5 } (by decide)⟩

/-! ## Claim C8 -/

/-- Claim C8: every notification created by `__init_notification`
stores timeout `popup_timeout` (the currently configured default,
sampled at creation time) when the requested timeout is `-1`, and the
requested value itself (including `0`) otherwise. -/
theorem C8_timeout_resolution (i : Nat) (a : NotifyArgs) (s s' : ServiceState)
    (h : initNotification i a s = Except.ok s') :
    ∃ n ∈ s'.notifications, n.id = i ∧
      n.timeout = (if a.timeout = -1 then s.popup_timeout else a.timeout) := by
  rcases initNotificationBody_ok (initNotification_ok h) with ⟨s1, hev, hadm⟩
  rcases evictStep_ok_shape hev with ⟨l, hl⟩
  refine ⟨mkNotification i a s, ?_, rfl, rfl⟩
  rw [hadm, (admitAndRegister_spec (mkNotification i a s) s1).2.2.1]
  exact mem_insertOrUpdate (mkNotification i a s) s1.notifications

/-- The concrete state the C8 witness initialises a notification in,
and the state `__init_notification` produces there. -/
def c8State : ServiceState := { initState with _id := 1 }

def c8Result : ServiceState :=
  match initNotification 1 { sampleArgs with timeout := -1 } c8State with
  | Except.ok s' => s'
  | Except.error s' => s'

theorem C8_timeout_resolution_witness :
    ∃ n ∈ c8Result.notifications, n.id = 1 ∧
      n.timeout = (if ({ sampleArgs with timeout := -1 } : NotifyArgs).timeout = -1
        then c8State.popup_timeout
        else ({ sampleArgs with timeout := -1 } : NotifyArgs).timeout) :=
  C8_timeout_resolution 1 { sampleArgs with timeout := -1 } c8State c8Result (by decide)

end Ignis

/-! ## Claims C5 and C9: eviction at capacity -/

namespace Ignis

/-- Claim C5: a `Notify` processed while the popup count is at or above
a positive maximum evicts exactly one existing popup — the
most-recently-admitted one (the last element of the insertion-ordered
popup list), not the oldest — before the new notification is admitted. -/
theorem C5_evicts_most_recent (i : Nat) (a : NotifyArgs) (s s' : ServiceState)
    (hnd : (s.popups.map Notification.id).Nodup)
    (hfresh : i ∉ s.popups.map Notification.id)
    (hmax : 0 < s.max_popups_count)
    (hlen : (s.popups.length : Int) ≥ s.max_popups_count)
    (hok : initNotification i a s = Except.ok s') :
    s'.popups = s.popups.dropLast ++
      (if s.dnd = true then [] else [mkNotification i a s]) ∧
    s'.popups.length + 1 =
      s.popups.length + (if s.dnd = true then 0 else 1) := by
  have hne := popups_ne_nil_at_capacity hmax hlen
  have hpos : 0 < s.popups.length := List.length_pos_iff_ne_nil.mpr hne
  have hev := evictStep_at_capacity hnd hmax.ne' hlen hne
  rcases initNotificationBody_ok (initNotification_ok hok) with ⟨s1, hev', hadm⟩
  rw [hev] at hev'
  injection hev' with hs1
  have hpop := (admitAndRegister_spec (mkNotification i a s) s1).2.2.2.2.1
  have hpopup : (mkNotification i a s).popup = !s.dnd := rfl
  have hmain : s'.popups = s.popups.dropLast ++
      (if s.dnd = true then [] else [mkNotification i a s]) := by
    rw [hadm, hpop, ← hs1]
    by_cases hd : s.dnd = true
    · simp [hpopup, hd]
    · have hd' : s.dnd = false := by
        cases hsd : s.dnd
        · rfl
        · exact absurd hsd hd
      have hnotin : i ∉ s.popups.dropLast.map Notification.id := by
        intro hc
        rcases List.mem_map.mp hc with ⟨x, hx, hxi⟩
        exact hfresh (List.mem_map.mpr ⟨x, List.mem_of_mem_dropLast hx, hxi⟩)
      simp only [hpopup, hd', Bool.not_false, if_true, Bool.false_eq_true, if_false]
      exact insertOrUpdate_of_not_mem (mkNotification i a s) s.popups.dropLast hnotin
  refine ⟨hmain, ?_⟩
  rw [hmain]
  rw [List.length_append, List.length_dropLast]
  by_cases hd : s.dnd = true
  · rw [if_pos hd, if_pos hd]
    simp only [List.length_nil]
    omega
  · rw [if_neg hd, if_neg hd]
    simp only [List.length_singleton]
    omega

/-- The state the C5 witness runs in: three live popups at the default
maximum of three. -/
def atCapacityState : ServiceState :=
  run initState [Op.notify sampleArgs, Op.notify sampleArgs, Op.notify sampleArgs]

def c5Result : ServiceState :=
  match initNotification 4 sampleArgs atCapacityState with
  | Except.ok s' => s'
  | Except.error s' => s'

theorem C5_evicts_most_recent_witness :
    c5Result.popups = atCapacityState.popups.dropLast ++
      (if atCapacityState.dnd = true then []
       else [mkNotification 4 sampleArgs atCapacityState]) ∧
    c5Result.popups.length + 1 = atCapacityState.popups.length +
      (if atCapacityState.dnd = true then 0 else 1) :=
  C5_evicts_most_recent 4 sampleArgs atCapacityState c5Result
    (by decide) (by decide) (by decide) (by decide) (by decide)

/-- Claim C9: when do-not-disturb is active and the popup count is at or
above a positive maximum, a `Notify` still dismisses the
most-recently-admitted popup even though the new notification is never
admitted (its popup flag is false), so the popup count decreases by
one. -/
theorem C9_dnd_still_evicts (i : Nat) (a : NotifyArgs) (s s' : ServiceState)
    (hdnd : s.dnd = true)
    (hnd : (s.popups.map Notification.id).Nodup)
    (hmax : 0 < s.max_popups_count)
    (hlen : (s.popups.length : Int) ≥ s.max_popups_count)
    (hok : initNotification i a s = Except.ok s') :
    (mkNotification i a s).popup = false ∧
    s'.popups = s.popups.dropLast ∧
    s'.popups.length + 1 = s.popups.length := by
  have hne := popups_ne_nil_at_capacity hmax hlen
  have hpos : 0 < s.popups.length := List.length_pos_iff_ne_nil.mpr hne
  have hev := evictStep_at_capacity hnd hmax.ne' hlen hne
  rcases initNotificationBody_ok (initNotification_ok hok) with ⟨s1, hev', hadm⟩
  rw [hev] at hev'
  injection hev' with hs1
  have hpop := (admitAndRegister_spec (mkNotification i a s) s1).2.2.2.2.1
  have hpopup : (mkNotification i a s).popup = false := by
    show (!s.dnd) = false
    rw [hdnd]
    rfl
  have hmain : s'.popups = s.popups.dropLast := by
    rw [hadm, hpop, ← hs1, hpopup]
    simp only [Bool.false_eq_true, if_false]
  refine ⟨hpopup, hmain, ?_⟩
  rw [hmain, List.length_dropLast]
  omega

/-- The state the C9 witness runs in: three live popups at the default
maximum, then do-not-disturb switched on. -/
def dndCapacityState : ServiceState := { atCapacityState with dnd := true }

def c9Result : ServiceState :=
  match initNotification 4 sampleArgs dndCapacityState with
  | Except.ok s' => s'
  | Except.error s' => s'

theorem C9_dnd_still_evicts_witness :
    (mkNotification 4 sampleArgs dndCapacityState).popup = false ∧
    c9Result.popups = dndCapacityState.popups.dropLast ∧
    c9Result.popups.length + 1 = dndCapacityState.popups.length :=
  C9_dnd_still_evicts 4 sampleArgs dndCapacityState c9Result
    (by decide) (by decide) (by decide) (by decide) (by decide)

end Ignis

/-! ## Claims C3 and C4: the popup bound and the zero maximum -/

namespace Ignis

/-- Claim C3 counterexample: with three admitted popups the maximum is
lowered to 1 at runtime; the next `Notify` evicts only one popup before
admitting, leaving 2 popups — more than the positive maximum — after
the admission completes. -/
theorem C3_counterexample :
    0 < (run initState [Op.notify sampleArgs, Op.notify sampleArgs,
      Op.setMax 1, Op.notify sampleArgs]).max_popups_count ∧
    ¬ ((run initState [Op.notify sampleArgs, Op.notify sampleArgs,
        Op.setMax 1, Op.notify sampleArgs]).popups.length : Int) ≤
      (run initState [Op.notify sampleArgs, Op.notify sampleArgs,
        Op.setMax 1, Op.notify sampleArgs]).max_popups_count := by
  decide

/-- Claim C3 (amended): when `max_popups_count > 0` and the popup count
at the start of the admission does not already exceed the maximum, the
popup count after the admission completes is at most the maximum.  (If
the count already exceeds the maximum — reachable by lowering
`max_popups_count` at runtime — a single eviction cannot restore the
bound.) -/
theorem C3_popup_bound_amended (i : Nat) (a : NotifyArgs) (s s' : ServiceState)
    (hmax : 0 < s.max_popups_count)
    (hlen : (s.popups.length : Int) ≤ s.max_popups_count)
    (hok : initNotification i a s = Except.ok s') :
    (s'.popups.length : Int) ≤ s.max_popups_count := by
  rcases initNotificationBody_ok (initNotification_ok hok) with ⟨s1, hev, hadm⟩
  have hpop := (admitAndRegister_spec (mkNotification i a s) s1).2.2.2.2.1
  have hlen' : s'.popups.length ≤ s1.popups.length + 1 := by
    rw [hadm, hpop]
    split
    · rcases length_insertOrUpdate (mkNotification i a s) s1.popups with h | h <;> omega
    · omega
  unfold evictStep at hev
  by_cases hc : (s.popups.length : Int) ≥ s.max_popups_count
  · rw [if_pos hc, if_neg hmax.ne'] at hev
    rcases hg : s.popups.getLast? with _ | p
    · rw [hg] at hev
      exact absurd hev (by simp)
    · rw [hg] at hev
      simp only [Except.ok.injEq] at hev
      have hpmem : p ∈ s.popups := by
        rcases List.mem_getLast?_eq_getLast (show p ∈ s.popups.getLast? from hg)
          with ⟨hh, hp⟩
        exact hp ▸ List.getLast_mem hh
      have hlt : s1.popups.length < s.popups.length := by
        rw [← hev]
        unfold dismissPopup
        rw [if_pos (find?_isSome_of_mem hpmem)]
        simp only
        unfold removeById
        rw [List.length_filter_lt_length_iff_exists]
        exact ⟨p, hpmem, by simp⟩
      omega
  · rw [if_neg hc] at hev
    simp only [Except.ok.injEq] at hev
    rw [← hev] at hlen'
    omega

def c3Result : ServiceState :=
  match initNotification 1 sampleArgs initState with
  | Except.ok s' => s'
  | Except.error s' => s'

theorem C3_popup_bound_amended_witness :
    0 < initState.max_popups_count ∧
    (initState.popups.length : Int) ≤ initState.max_popups_count ∧
    (c3Result.popups.length : Int) ≤ initState.max_popups_count :=
  ⟨by decide, by decide,
    C3_popup_bound_amended 1 sampleArgs initState c3Result
      (by decide) (by decide) (by decide)⟩

/-- Claim C4 counterexample: with `max_popups_count = 0` a fresh
`Notify` performs no eviction but the new notification is still admitted
to the popup subset (the zero check only guards the dismissal), so
`popups` is not empty. -/
theorem C4_counterexample :
    (run initState [Op.setMax 0, Op.notify sampleArgs]).max_popups_count = 0 ∧
    (run initState [Op.setMax 0, Op.notify sampleArgs]).popups ≠ [] := by
  decide

/-- Claim C4 (amended): when `max_popups_count = 0`, processing a
`Notify` performs no eviction, but the new notification is still
admitted to the popup subset whenever its popup flag is true (so
`popups` need not be empty); the persisted history is written exactly as
in the positive-maximum case. -/
theorem C4_zero_max_amended (i : Nat) (a : NotifyArgs) (s s' : ServiceState)
    (hmax : s.max_popups_count = 0)
    (hok : initNotification i a s = Except.ok s') :
    s'.popups = (if s.dnd = true then s.popups
                 else insertOrUpdate (mkNotification i a s) s.popups) ∧
    s'.notifications = insertOrUpdate (mkNotification i a s) s.notifications ∧
    s'.file = { id := s._id, notifications := s'.notifications } := by
  have hev : evictStep s = Except.ok s := by
    unfold evictStep
    rw [hmax]
    split
    · rw [if_pos rfl]
    · rfl
  rcases initNotificationBody_ok (initNotification_ok hok) with ⟨s1, hev', hadm⟩
  rw [hev] at hev'
  injection hev' with hs1
  rcases admitAndRegister_spec (mkNotification i a s) s1 with
    ⟨_, _, hnot, hfile, hpop, _, _⟩
  subst hs1
  refine ⟨?_, ?_, ?_⟩
  · rw [hadm, hpop]
    have hpopup : (mkNotification i a s).popup = !s.dnd := rfl
    by_cases hd : s.dnd = true
    · simp [hpopup, hd]
    · have hd' : s.dnd = false := by
        cases hsd : s.dnd
        · rfl
        · exact absurd hsd hd
      simp [hpopup, hd']
  · rw [hadm, hnot]
  · rw [hadm, hfile, hnot]

def zeroMaxState : ServiceState := { initState with max_popups_count := 0 }

def c4Result : ServiceState :=
  match initNotification 1 sampleArgs zeroMaxState with
  | Except.ok s' => s'
  | Except.error s' => s'

theorem C4_zero_max_amended_witness :
    zeroMaxState.max_popups_count = 0 ∧
    (c4Result.popups = (if zeroMaxState.dnd = true then zeroMaxState.popups
        else insertOrUpdate (mkNotification 1 sampleArgs zeroMaxState)
          zeroMaxState.popups) ∧
     c4Result.notifications = insertOrUpdate (mkNotification 1 sampleArgs zeroMaxState)
        zeroMaxState.notifications ∧
     c4Result.file = { id := zeroMaxState._id,
                       notifications := c4Result.notifications }) :=
  ⟨by decide, C4_zero_max_amended 1 sampleArgs zeroMaxState c4Result
    (by decide) (by decide)⟩

end Ignis

/-! ## Claim C1: the replace path -/

namespace Ignis

/-- Claim C1 (evaluation at the failing input): with notification 1
live, `Notify(replaces_id = 1)` drives the old notification through its
close path — `NotificationClosed(1, 2)` is emitted and the store entry
removed — but the replacement is never constructed: `__Notify` connects
the `"closed"` handler that would call `_init` only after `close()` has
already emitted the signal synchronously, so the handler never runs.
The method still returns id 1 while no notification with id 1 exists. -/
theorem C1_replace_never_creates_replacement :
    (run initState [Op.notify sampleArgs,
        Op.notify { sampleArgs with replaces_id := 1, app_name := "other" }]).events =
      [Event.newPopup 1, Event.notified 1, Event.notificationClosed 1 2] ∧
    (run initState [Op.notify sampleArgs,
        Op.notify { sampleArgs with replaces_id := 1, app_name := "other" }]).notifications
      = [] ∧
    notifyCall { sampleArgs with replaces_id := 1, app_name := "other" }
        (run initState [Op.notify sampleArgs]) =
      Except.ok (run initState [Op.notify sampleArgs,
        Op.notify { sampleArgs with replaces_id := 1, app_name := "other" }], 1) := by
  decide

/-! ## Claim C6: loading an invalid history file -/

/-- A persisted record used by the C6 counterexample. -/
def sampleRecord : Notification :=
  { id := 5, app_name := "x", icon := none, summary := "s", body := "b",
    actions := [], urgency := 1, timeout := 0, time := 0, popup := true }

/-- Claim C6 counterexample: a history file that parses as an object
holding one valid record followed by an invalid one does not yield an
empty in-memory store — the valid record stays loaded (partial
recovery), although the file is rewritten with the empty skeleton. -/
theorem C6_counterexample :
    (loadNotifications (ParsedFile.object (some 7)
        [RawRecord.valid sampleRecord, RawRecord.invalid]) initState).notifications
      ≠ [] ∧
    (loadNotifications (ParsedFile.object (some 7)
        [RawRecord.valid sampleRecord, RawRecord.invalid]) initState).file
      = emptySkeleton := by
  decide

theorem tryLoadRecords_stops_at_invalid (ns : List Notification)
    (rest : List RawRecord) :
    ∀ s : ServiceState,
      tryLoadRecords (ns.map RawRecord.valid ++ RawRecord.invalid :: rest) s =
        Except.error (ns.foldl (fun st n => addLoaded n st) s) := by
  induction ns with
  | nil => intro s; rfl
  | cons n ms ih =>
    intro s
    simp only [List.map_cons, List.cons_append, tryLoadRecords, List.foldl_cons]
    exact ih (addLoaded n s)

/-- Claim C6 (amended): loading an invalid history file never escapes
the load boundary and always ends with the file rewritten to the
canonical empty skeleton.  When the file is unparseable or not an
object, the in-memory state is otherwise untouched (so the store stays
empty at boot); but when the file parses and an individual record is
invalid, the valid records preceding it remain loaded in the store
(partial recovery) and the persisted id counter is not restored. -/
theorem C6_invalid_load_amended (s : ServiceState) :
    loadNotifications ParsedFile.unparseable s = { s with file := emptySkeleton } ∧
    loadNotifications ParsedFile.notObject s = { s with file := emptySkeleton } ∧
    (∀ (oid : Option Nat) (ns : List Notification) (rest : List RawRecord),
      loadNotifications (ParsedFile.object oid
          (ns.map RawRecord.valid ++ RawRecord.invalid :: rest)) s =
        { ns.foldl (fun st n => addLoaded n st) s with file := emptySkeleton }) := by
  refine ⟨rfl, rfl, ?_⟩
  intro oid ns rest
  simp only [loadNotifications, tryLoad, tryLoadRecords_stops_at_invalid]

/-! ## Claim C7: decode failures -/

/-- Arguments of a `Notify` carrying an embedded image payload whose decoding
fails. -/
def badImageArgs : NotifyArgs :=
  { sampleArgs with hints := { image_data := some { decodes := false } } }

/-- Claim C7 counterexample: a fresh `Notify` whose embedded image
payload fails to decode raises out of the handler with only the id
counter consumed; no notification is created at all — in particular the
notification is not created without an icon as the claim states. -/
theorem C7_counterexample :
    notifyCall badImageArgs initState = Except.error { initState with _id := 1 } ∧
    ({ initState with _id := 1 } : ServiceState).notifications = [] ∧
    ({ initState with _id := 1 } : ServiceState).events = [] := by
  decide

/-- Claim C7 (amended): a decode failure propagates out of
`__init_notification` as an uncaught exception instead of degrading
gracefully: a fresh `Notify` leaves the daemon with only the counter
incremented (no store entry, no signals, no persistence), and a
replace-miss `Notify` leaves the state entirely unchanged — in neither
case is the notification created. -/
theorem C7_decode_failure_amended (s : ServiceState) (a : NotifyArgs)
    (d : ImageData) (himg : a.hints.image_data = some d)
    (hbad : d.decodes = false) :
    (a.replaces_id = 0 →
      notifyCall a s = Except.error { s with _id := s._id + 1 }) ∧
    (a.replaces_id ≠ 0 → getNotification s a.replaces_id = none →
      notifyCall a s = Except.error s) := by
  have hinit : ∀ (i : Nat) (s0 : ServiceState),
      initNotification i a s0 = Except.error s0 := by
    intro i s0
    unfold initNotification savePixbuf
    rw [himg]
    simp [hbad]
  constructor
  · intro hz
    simp only [notifyCall, if_pos hz, hinit]
  · intro hz hg
    simp only [notifyCall, if_neg hz, hg, hinit]

theorem C7_decode_failure_amended_witness :
    badImageArgs.hints.image_data = some { decodes := false } ∧
    ({ decodes := false } : ImageData).decodes = false ∧
    ((badImageArgs.replaces_id = 0 →
        notifyCall badImageArgs initState =
          Except.error { initState with _id := initState._id + 1 }) ∧
     (badImageArgs.replaces_id ≠ 0 →
        getNotification initState badImageArgs.replaces_id = none →
        notifyCall badImageArgs initState = Except.error initState)) :=
  ⟨by decide, by decide,
    C7_decode_failure_amended initState badImageArgs { decodes := false }
      (by decide) (by decide)⟩

end Ignis

/-! ## The popup/store dictionaries never hold duplicate ids

Python dicts are keyed by id, so `self._popups` and
`self._notifications` can never hold two entries with the same id; the
list embedding preserves this in every reachable state, which justifies
the `Nodup` hypotheses of the admission theorems above. -/

namespace Ignis

theorem ids_insertOrUpdate_sub (n : Notification) :
    ∀ (l : List Notification) (x : Nat),
      x ∈ (insertOrUpdate n l).map Notification.id →
      x = n.id ∨ x ∈ l.map Notification.id := by
  intro l
  induction l with
  | nil =>
    intro x hx
    simp only [insertOrUpdate, List.map_cons, List.map_nil, List.mem_singleton] at hx
    exact Or.inl hx
  | cons m rest ih =>
    intro x hx
    by_cases h : m.id = n.id
    · simp only [insertOrUpdate, if_pos h, List.map_cons, List.mem_cons] at hx
      rcases hx with hx | hx
      · exact Or.inl hx
      · exact Or.inr (List.mem_cons.mpr (Or.inr hx))
    · simp only [insertOrUpdate, if_neg h, List.map_cons, List.mem_cons] at hx
      rcases hx with hx | hx
      · exact Or.inr (List.mem_cons.mpr (Or.inl hx))
      · rcases ih x hx with hx' | hx'
        · exact Or.inl hx'
        · exact Or.inr (List.mem_cons.mpr (Or.inr hx'))

theorem nodup_insertOrUpdate (n : Notification) :
    ∀ l : List Notification, (l.map Notification.id).Nodup →
      ((insertOrUpdate n l).map Notification.id).Nodup := by
  intro l
  induction l with
  | nil =>
    intro _
    simp [insertOrUpdate]
  | cons m rest ih =>
    intro h
    rcases List.nodup_cons.mp h with ⟨hm, hrest⟩
    by_cases hid : m.id = n.id
    · simp only [insertOrUpdate, if_pos hid, List.map_cons]
      rw [List.nodup_cons]
      exact ⟨hid ▸ hm, hrest⟩
    · simp only [insertOrUpdate, if_neg hid, List.map_cons]
      rw [List.nodup_cons]
      refine ⟨?_, ih hrest⟩
      intro hc
      rcases ids_insertOrUpdate_sub n rest m.id hc with hc' | hc'
      · exact hid hc'
      · exact hm hc'

theorem nodup_removeById (i : Nat) (l : List Notification)
    (h : (l.map Notification.id).Nodup) :
    ((removeById i l).map Notification.id).Nodup :=
  List.Nodup.sublist (List.Sublist.map Notification.id (List.filter_sublist l)) h

/-- Both dictionaries of the daemon state hold pairwise-distinct ids. -/
def DictsOk (s : ServiceState) : Prop :=
  (s.popups.map Notification.id).Nodup ∧
  (s.notifications.map Notification.id).Nodup

theorem dismissPopup_dictsOk (i : Nat) (s : ServiceState) (h : DictsOk s) :
    DictsOk (dismissPopup i s) := by
  unfold dismissPopup
  split
  · exact ⟨nodup_removeById i s.popups h.1, h.2⟩
  · exact h

theorem evictStep_ok_dictsOk {s s1 : ServiceState}
    (hev : evictStep s = Except.ok s1) (h : DictsOk s) : DictsOk s1 := by
  unfold evictStep at hev
  split at hev
  · split at hev
    · cases hev; exact h
    · split at hev
      · exact absurd hev (by simp)
      · cases hev
        exact dismissPopup_dictsOk _ s h
  · cases hev; exact h

theorem admitAndRegister_dictsOk (n : Notification) (s : ServiceState)
    (h : DictsOk s) : DictsOk (admitAndRegister n s) := by
  rcases admitAndRegister_spec n s with ⟨_, _, hnot, _, hpop, _, _⟩
  constructor
  · rw [hpop]
    split
    · exact nodup_insertOrUpdate n s.popups h.1
    · exact h.1
  · rw [hnot]
    exact nodup_insertOrUpdate n s.notifications h.2

theorem initNotification_ok_dictsOk {i : Nat} {a : NotifyArgs}
    {s s' : ServiceState} (hok : initNotification i a s = Except.ok s')
    (h : DictsOk s) : DictsOk s' := by
  rcases initNotificationBody_ok (initNotification_ok hok) with ⟨s1, hev, hadm⟩
  rw [hadm]
  exact admitAndRegister_dictsOk _ s1 (evictStep_ok_dictsOk hev h)

theorem closeNotification_dictsOk (n : Notification) (s : ServiceState)
    (h : DictsOk s) : DictsOk (closeNotification n s) := by
  unfold closeNotification sync
  have h1 : DictsOk { s with notifications := removeById n.id s.notifications } :=
    ⟨h.1, nodup_removeById n.id s.notifications h.2⟩
  split
  · rcases dismissPopup_dictsOk n.id
      { s with notifications := removeById n.id s.notifications } h1 with ⟨hp, hn⟩
    exact ⟨hp, hn⟩
  · exact h1

theorem foldl_addLoaded_dictsOk (ns : List Notification) :
    ∀ s : ServiceState, DictsOk s →
      DictsOk (ns.foldl (fun st n => addLoaded n st) s) := by
  induction ns with
  | nil => intro s h; exact h
  | cons n rest ih =>
    intro s h
    simp only [List.foldl_cons]
    refine ih (addLoaded n s) ⟨h.1, ?_⟩
    exact nodup_insertOrUpdate _ s.notifications h.2

theorem stepDictsOk (s : ServiceState) (o : Op) (h : DictsOk s) :
    DictsOk (step s o) := by
  cases o with
  | notify a =>
    simp only [step]
    by_cases hz : a.replaces_id = 0
    · simp only [notifyCall, if_pos hz]
      rcases hI : initNotification (s._id + 1) a { s with _id := s._id + 1 }
        with se | sk
      · simp only
        rw [initNotification_error_eq hI]
        exact h
      · simp only
        have := initNotification_ok_dictsOk hI (⟨h.1, h.2⟩ :
          DictsOk { s with _id := s._id + 1 })
        exact ⟨this.1, this.2⟩
    · simp only [notifyCall, if_neg hz]
      rcases hg : getNotification s a.replaces_id with _ | old
      · simp only
        rcases hI : initNotification a.replaces_id a s with se | sk
        · simp only
          rw [initNotification_error_eq hI]
          exact h
        · simp only
          exact initNotification_ok_dictsOk hI h
      · simp only
        exact closeNotification_dictsOk old s h
  | closeReq i =>
    simp only [step]
    rcases hg : getNotification s i with _ | n
    · exact h
    · simp only
      exact closeNotification_dictsOk n s h
  | setDnd b => exact h
  | setTimeout t => exact h
  | setMax m => exact h
  | restart =>
    simp only [step]
    unfold loadNotifications
    have hld := tryLoadRecords_valid s.file.notifications
      (bootState s.file s.clock s.returned)
    simp only [parseOf, tryLoad, hld]
    have hfold := foldl_addLoaded_dictsOk s.file.notifications
      (bootState s.file s.clock s.returned) ⟨List.nodup_nil, List.nodup_nil⟩
    exact ⟨hfold.1, hfold.2⟩

theorem run_dictsOk (ops : List Op) : DictsOk (run initState ops) := by
  have aux : ∀ (l : List Op) (s : ServiceState), DictsOk s → DictsOk (run s l) := by
    intro l
    induction l with
    | nil => intro s h; exact h
    | cons o rest ih => intro s h; exact ih (step s o) (stepDictsOk s o h)
  exact aux ops initState ⟨List.nodup_nil, List.nodup_nil⟩

end Ignis
